import Mathlib

/-
Verification of the sht2 content-addressable blob store (main.go).

Shallow embedding conventions:
- bytes are Nat (with explicit < 256 bounds where the value range matters);
- a path component is a List Char, a path is a list of components relative
  to the storage root;
- the filesystem is an association list from paths to file contents plus a
  list of existing directories; the error-free filesystem paths of the Go
  handler (CreateTemp, Close, MkdirAll, Rename succeeding) are the modelled
  executions, the 500 branches on filesystem errors are outside the model;
- the BLAKE3 library digest and the mime.ParseMediaType library parser are
  external collaborators, modelled as function parameters of the handler;
- sizes are Nat: the Go int64 arithmetic (used + n) cannot overflow for
  any reachable store, so no modular reduction is modelled.
-/

namespace Sht2

abbrev Bytes := List Nat

abbrev Name := List Char

abbrev Path := List Name

/-- Configuration file name, constant cfgPath in main.go. -/
def cfgPath : Name := ".sht2".data

/-- Character class of the identifier regular expression idRe, main.go line 26:
one character of A-Z, a-z, 0-9, underscore or hyphen. -/
def isIdChar (c : Char) : Bool :=
  (decide ('A' ≤ c) && decide (c ≤ 'Z')) ||
  (decide ('a' ≤ c) && decide (c ≤ 'z')) ||
  (decide ('0' ≤ c) && decide (c ≤ '9')) ||
  c = '_' || c = '-'

/-- The test of idRe on a whole candidate identifier: exactly 43 characters,
all of the URL-safe alphabet. -/
def idReMatch (id : Name) : Bool :=
  decide (id.length = 43) && id.all isIdChar

/-- One output character of the URL-safe base64 alphabet used by
base64.RawURLEncoding: A-Z, a-z, 0-9, hyphen, underscore. -/
def b64UrlChar (n : Nat) : Char :=
  if n < 26 then Char.ofNat (65 + n)
  else if n < 52 then Char.ofNat (97 + (n - 26))
  else if n < 62 then Char.ofNat (48 + (n - 52))
  else if n = 62 then '-'
  else '_'

/-- Unpadded URL-safe base64 of a byte sequence, the behaviour of
base64.RawURLEncoding.EncodeToString used at main.go line 216: groups of
three bytes become four characters of six bits each, a trailing remainder of
one or two bytes becomes two or three characters, and no padding is
emitted. -/
def rawUrlEncode : Bytes → Name
  | [] => []
  | [b0] => [b64UrlChar (b0 / 4), b64UrlChar (b0 % 4 * 16)]
  | [b0, b1] => [b64UrlChar (b0 / 4), b64UrlChar (b0 % 4 * 16 + b1 / 16),
      b64UrlChar (b1 % 16 * 4)]
  | b0 :: b1 :: b2 :: rest =>
      b64UrlChar (b0 / 4) :: b64UrlChar (b0 % 4 * 16 + b1 / 16) ::
      b64UrlChar (b1 % 16 * 4 + b2 / 64) :: b64UrlChar (b2 % 64) ::
      rawUrlEncode rest

/-- Storage path of an identifier, objPath in main.go lines 51-53: the two
shard directories are the first two and next two characters of the id, and
the final path component is the full id (filepath.Join of root, id[:2],
id[2:4], id), given here relative to the storage root. -/
def objPath (id : Name) : Path :=
  [id.take 2, (id.drop 2).take 2, id]

/-- First file entry of an association list at a path, the model of a
successful os.Stat or os.Open probe. -/
def lookupF : List (Path × Bytes) → Path → Option Bytes
  | [], _ => none
  | e :: rest, p => if e.1 = p then some e.2 else lookupF rest p

/-- Removal of the file at a path, the model of os.Remove. -/
def eraseF : List (Path × Bytes) → Path → List (Path × Bytes)
  | [], _ => []
  | e :: rest, p => if e.1 = p then rest else e :: eraseF rest p

/-- Creation or replacement of the file at a path, the model of writing a
file (and of the destination side of os.Rename). -/
def insertF (l : List (Path × Bytes)) (p : Path) (v : Bytes) :
    List (Path × Bytes) :=
  (p, v) :: eraseF l p

/-- Filesystem under the storage root: files and directories. -/
structure FS where
  files : List (Path × Bytes)
  dirs : List Path
deriving DecidableEq

/-- Final path component, the behaviour of filepath.Base on the modelled
paths. -/
def pathBase (p : Path) : Name := p.getLastD []

/-- Sum of the sizes of a list of files. -/
def fileSizeSum (l : List (Path × Bytes)) : Nat :=
  l.foldr (fun e a => e.2.length + a) 0

/-- Disk usage walk of main.go lines 125-145: the sizes of all regular files
under the root are summed, skipping the one excluded path and every file
whose base name is the configuration file name. -/
def diskUsageBytes (fs : FS) (exclude : Path) : Nat :=
  fileSizeSum (fs.files.filter
    (fun e => !(decide (e.1 = exclude)) && !(decide (pathBase e.1 = cfgPath))))

/-- Total size of the stored objects: every file under the root other than
the configuration file. Used to state the storage-ceiling invariant. -/
def storedObjectBytes (l : List (Path × Bytes)) : Nat :=
  fileSizeSum (l.filter (fun e => !(decide (pathBase e.1 = cfgPath))))

/-- Quota ceilings of main.go, quotaConfig fields MaxStorageByte and
MaxUploadByte. -/
structure quotaConfig where
  MaxStorageByte : Nat
  MaxUploadByte : Nat
deriving DecidableEq

/-- One part of a multipart/form-data body as surfaced by mime/multipart:
its declared file name, its form field name, and its content bytes. -/
structure Part where
  fileName : Name
  formName : Name
  content : Bytes
deriving DecidableEq

/-- An upload request: the Content-Type header value (empty list for an
absent header), the raw body bytes, and, when the body parses as a
multipart stream, its parts (none when r.MultipartReader fails). -/
structure Request where
  contentType : Name
  body : Bytes
  parts : Option (List Part)
deriving DecidableEq

/-- Outcome of selecting the upload source stream, main.go lines 158-198. -/
inductive SrcResult where
  | errCT
  | errMultipart
  | errMissingPart
  | ok (b : Bytes)
deriving DecidableEq

/-- Part-selection loop of main.go lines 173-189: the first part that
declares a file name or whose form name is file is the payload; every
earlier part is closed and skipped. -/
def findFilePart : List Part → Option Part
  | [] => none
  | p :: rest =>
      if p.fileName ≠ [] ∨ p.formName = "file".data then some p
      else findFilePart rest

/-- Source selection of main.go lines 158-198: an empty Content-Type keeps
the raw body; otherwise the media type is parsed (parameter pmt models
mime.ParseMediaType, returning none on a malformed header); a
multipart/form-data media type reads the multipart body and picks the file
part; any other media type keeps the raw body. -/
def chooseSrc (pmt : Name → Option Name) (req : Request) : SrcResult :=
  if req.contentType = [] then .ok req.body
  else
    match pmt req.contentType with
    | none => .errCT
    | some mediaType =>
        if mediaType = "multipart/form-data".data then
          match req.parts with
          | none => .errMultipart
          | some ps =>
              match findFilePart ps with
              | none => .errMissingPart
              | some p => .ok p.content
        else .ok req.body

/-- HTTP response of the upload handler. -/
inductive UploadResp where
  | ok (id : Name) (size : Nat) (deduped : Bool)
  | err400ContentType
  | err400Multipart
  | err400MissingPart
  | err413
  | err507 (usedBytes maxStorageBytes : Nat)
deriving DecidableEq

/-- Observable outcome of one run of the upload handler: the response, the
final filesystem, and event flags recording whether the quota mutex was
taken, whether the hash was finalized (h.Sum called), whether the staging
file was renamed to its target, whether diskUsageBytes ran, and whether a
staging temporary file was created at any point. -/
structure UploadOut where
  resp : UploadResp
  fs : FS
  lockAcquired : Bool
  hashFinalized : Bool
  renamed : Bool
  usageComputed : Bool
  tmpCreated : Bool
deriving DecidableEq

/-- Publish gate of main.go lines 216-256, entered with the staged bytes in
the temporary file: derive the id from the finalized digest, create the
shard directories, then under the quota mutex either short-circuit as a
duplicate, reject on the storage ceiling, or atomically rename the staging
file to the target; the deferred os.Remove of the staging file runs on
every path. -/
def publishGate (digest : Bytes → Bytes) (cfg : quotaConfig) (fs1 : FS)
    (tmp : Path) (src : Bytes) : UploadOut :=
  let fs2 : FS := ⟨insertF fs1.files tmp src, fs1.dirs⟩
  let n := src.length
  let id := rawUrlEncode (digest src)
  let final := objPath id
  let fs3 : FS := ⟨fs2.files, final.take 1 :: final.take 2 :: fs2.dirs⟩
  match lookupF fs3.files final with
  | some _ =>
      { resp := .ok id n true, fs := ⟨eraseF fs3.files tmp, fs3.dirs⟩,
        lockAcquired := true, hashFinalized := true, renamed := false,
        usageComputed := false, tmpCreated := true }
  | none =>
      let used := diskUsageBytes fs3 tmp
      if used + n > cfg.MaxStorageByte then
        { resp := .err507 used cfg.MaxStorageByte,
          fs := ⟨eraseF fs3.files tmp, fs3.dirs⟩,
          lockAcquired := true, hashFinalized := true, renamed := false,
          usageComputed := true, tmpCreated := true }
      else
        { resp := .ok id n false,
          fs := ⟨eraseF (insertF (eraseF fs3.files tmp) final src) tmp,
                 fs3.dirs⟩,
          lockAcquired := true, hashFinalized := true, renamed := true,
          usageComputed := true, tmpCreated := true }

/-- Upload handler of main.go lines 147-256 on its error-free filesystem
paths: the staging temporary file is created first (line 150) with its
deferred removal, the source stream is selected (lines 158-198), the body
is copied into the staging file while hashed, with the MaxBytesReader limit
aborting an oversize copy before the hash is finalized (lines 200-210), and
control then enters the publish gate. -/
def upload (digest : Bytes → Bytes) (pmt : Name → Option Name)
    (cfg : quotaConfig) (fs : FS) (tmp : Path) (req : Request) : UploadOut :=
  let fs1 : FS := ⟨insertF fs.files tmp [], fs.dirs⟩
  match chooseSrc pmt req with
  | .errCT =>
      { resp := .err400ContentType, fs := ⟨eraseF fs1.files tmp, fs1.dirs⟩,
        lockAcquired := false, hashFinalized := false, renamed := false,
        usageComputed := false, tmpCreated := true }
  | .errMultipart =>
      { resp := .err400Multipart, fs := ⟨eraseF fs1.files tmp, fs1.dirs⟩,
        lockAcquired := false, hashFinalized := false, renamed := false,
        usageComputed := false, tmpCreated := true }
  | .errMissingPart =>
      { resp := .err400MissingPart, fs := ⟨eraseF fs1.files tmp, fs1.dirs⟩,
        lockAcquired := false, hashFinalized := false, renamed := false,
        usageComputed := false, tmpCreated := true }
  | .ok src =>
      if src.length > cfg.MaxUploadByte then
        { resp := .err413, fs := ⟨eraseF fs1.files tmp, fs1.dirs⟩,
          lockAcquired := false, hashFinalized := false, renamed := false,
          usageComputed := false, tmpCreated := true }
      else publishGate digest cfg fs1 tmp src

/-- Observable outcome of the retrieval handler serveByID: whether it
answered not found, the served bytes and ETag header value on success, and
whether it attempted to open a file on the filesystem. -/
structure ServeOut where
  respNotFound : Bool
  body : Option Bytes
  etag : Option Name
  attemptedOpen : Bool
deriving DecidableEq

/-- The strings.TrimPrefix of the URL path with the single leading slash,
main.go line 259. -/
def trimLeadingSlash : Name → Name
  | '/' :: rest => rest
  | l => l

/-- Retrieval handler of main.go lines 258-281: strip the leading slash,
reject an empty, slash-containing, or non-matching identifier as not found
without touching the filesystem, otherwise open objPath id, answering not
found on absence, else serving the bytes with the quoted id as ETag. -/
def serveByID (fs : FS) (urlPath : Name) : ServeOut :=
  let id := trimLeadingSlash urlPath
  if id = [] ∨ '/' ∈ id ∨ ¬ idReMatch id then
    { respNotFound := true, body := none, etag := none,
      attemptedOpen := false }
  else
    match lookupF fs.files (objPath id) with
    | none =>
        { respNotFound := true, body := none, etag := none,
          attemptedOpen := true }
    | some d =>
        { respNotFound := false, body := some d,
          etag := some ('"' :: id ++ ['"']), attemptedOpen := true }

/-- The path scheme as the spec sentence for claim C5 words it: shard
segments of the first two and next two characters, and only the REMAINING
39 characters of the id as the final path component. Stated for comparison
against objPath, which is the scheme the code implements. -/
def specPathForC5 (id : Name) : Path :=
  [id.take 2, (id.drop 2).take 2, id.drop 4]

/-! Helper lemmas on the association-list filesystem. -/

lemma lookupF_cons (e : Path × Bytes) (rest : List (Path × Bytes)) (p : Path) :
    lookupF (e :: rest) p = if e.1 = p then some e.2 else lookupF rest p := rfl

lemma lookupF_cons_none {e : Path × Bytes} {rest : List (Path × Bytes)}
    {p : Path} (h : lookupF (e :: rest) p = none) :
    e.1 ≠ p ∧ lookupF rest p = none := by
  rw [lookupF_cons] at h
  by_cases he : e.1 = p
  · simp [he] at h
  · exact ⟨he, by simpa [he] using h⟩

lemma eraseF_of_lookupF_none {l : List (Path × Bytes)} {p : Path}
    (h : lookupF l p = none) : eraseF l p = l := by
  induction l with
  | nil => rfl
  | cons e rest ih =>
      obtain ⟨hne, hrest⟩ := lookupF_cons_none h
      simp [eraseF, hne, ih hrest]

lemma eraseF_cons_self {rest : List (Path × Bytes)} {p : Path} (v : Bytes) :
    eraseF ((p, v) :: rest) p = rest := by
  simp [eraseF]

lemma staged_files {fs : List (Path × Bytes)} {tmp : Path}
    (hfresh : lookupF fs tmp = none) (src : Bytes) :
    insertF (insertF fs tmp []) tmp src = (tmp, src) :: fs := by
  simp [insertF, eraseF_of_lookupF_none hfresh, eraseF]

lemma fileSizeSum_cons (e : Path × Bytes) (l : List (Path × Bytes)) :
    fileSizeSum (e :: l) = e.2.length + fileSizeSum l := rfl

lemma filter_drop_exclude {l : List (Path × Bytes)} {p : Path}
    (q : Path × Bytes → Bool) (h : lookupF l p = none) :
    l.filter (fun e => !(decide (e.1 = p)) && q e) = l.filter q := by
  induction l with
  | nil => rfl
  | cons e rest ih =>
      obtain ⟨hne, hrest⟩ := lookupF_cons_none h
      by_cases hq : q e
      · simp [List.filter_cons, hne, hq, ih hrest]
      · simp [List.filter_cons, hne, hq, ih hrest]

lemma diskUsageBytes_staged {fs : List (Path × Bytes)} {tmp : Path}
    (dirs : List Path) (src : Bytes) (hfresh : lookupF fs tmp = none) :
    diskUsageBytes ⟨(tmp, src) :: fs, dirs⟩ tmp = storedObjectBytes fs := by
  unfold diskUsageBytes storedObjectBytes
  have hhead : ((tmp, src) :: fs).filter
      (fun e => !(decide (e.1 = tmp)) && !(decide (pathBase e.1 = cfgPath))) =
      fs.filter (fun e => !(decide (e.1 = tmp)) && !(decide (pathBase e.1 = cfgPath))) := by
    simp [List.filter_cons]
  rw [hhead]
  exact congrArg fileSizeSum (filter_drop_exclude _ hfresh)

lemma storedObjectBytes_cons_ne {fs : List (Path × Bytes)} {p : Path}
    (v : Bytes) (h : pathBase p ≠ cfgPath) :
    storedObjectBytes ((p, v) :: fs) = v.length + storedObjectBytes fs := by
  unfold storedObjectBytes
  simp [List.filter_cons, h, fileSizeSum_cons]

lemma cleanup_fresh {l : List (Path × Bytes)} {p : Path} (v : Bytes)
    (h : lookupF l p = none) : eraseF (insertF l p v) p = l := by
  simp [insertF, eraseF, eraseF_of_lookupF_none h]

/-! Helper lemmas on the base64 identifier encoding. -/

lemma b64UrlChar_isIdChar : ∀ n, n < 64 → isIdChar (b64UrlChar n) = true := by
  decide

lemma rawUrlEncode_length (l : Bytes) :
    (rawUrlEncode l).length = (4 * l.length + 2) / 3 := by
  induction l using rawUrlEncode.induct with
  | case1 => rfl
  | case2 b0 => simp [rawUrlEncode]
  | case3 b0 b1 => simp [rawUrlEncode]
  | case4 b0 b1 b2 rest ih =>
      simp only [rawUrlEncode, List.length_cons, ih]
      omega

lemma rawUrlEncode_all_isIdChar (l : Bytes) (hb : ∀ x ∈ l, x < 256) :
    (rawUrlEncode l).all isIdChar = true := by
  induction l using rawUrlEncode.induct with
  | case1 => rfl
  | case2 b0 =>
      have h0 : b0 < 256 := hb b0 (by simp)
      simp only [rawUrlEncode, List.all_cons, List.all_nil, Bool.and_true,
        Bool.and_eq_true]
      exact ⟨b64UrlChar_isIdChar _ (by omega), b64UrlChar_isIdChar _ (by omega)⟩
  | case3 b0 b1 =>
      have h0 : b0 < 256 := hb b0 (by simp)
      have h1 : b1 < 256 := hb b1 (by simp)
      simp only [rawUrlEncode, List.all_cons, List.all_nil, Bool.and_true,
        Bool.and_eq_true]
      exact ⟨b64UrlChar_isIdChar _ (by omega),
        b64UrlChar_isIdChar _ (by omega), b64UrlChar_isIdChar _ (by omega)⟩
  | case4 b0 b1 b2 rest ih =>
      have h0 : b0 < 256 := hb b0 (by simp)
      have h1 : b1 < 256 := hb b1 (by simp)
      have h2 : b2 < 256 := hb b2 (by simp)
      have hrest : ∀ x ∈ rest, x < 256 := fun x hx => hb x (by simp [hx])
      simp only [rawUrlEncode, List.all_cons, Bool.and_eq_true]
      exact ⟨b64UrlChar_isIdChar _ (by omega), b64UrlChar_isIdChar _ (by omega),
        b64UrlChar_isIdChar _ (by omega), b64UrlChar_isIdChar _ (by omega),
        ih hrest⟩

lemma not_mem_of_all_isIdChar {l : Name} {c : Char}
    (hall : l.all isIdChar = true) (hc : isIdChar c = false) : c ∉ l := by
  intro hmem
  have := List.all_eq_true.mp hall c hmem
  rw [hc] at this
  exact Bool.false_ne_true this

lemma idReMatch_eq_true {id : Name} :
    idReMatch id = true ↔ (id.length = 43 ∧ id.all isIdChar = true) := by
  unfold idReMatch
  simp

lemma encoded_id_valid {d : Bytes} (hd32 : d.length = 32)
    (hdlt : ∀ x ∈ d, x < 256) :
    (rawUrlEncode d).length = 43 ∧ (rawUrlEncode d).all isIdChar = true ∧
      '/' ∉ rawUrlEncode d ∧ '+' ∉ rawUrlEncode d ∧ '=' ∉ rawUrlEncode d := by
  have hall := rawUrlEncode_all_isIdChar d hdlt
  refine ⟨?_, hall, not_mem_of_all_isIdChar hall (by decide),
    not_mem_of_all_isIdChar hall (by decide),
    not_mem_of_all_isIdChar hall (by decide)⟩
  rw [rawUrlEncode_length, hd32]

lemma encoded_id_matches {d : Bytes} (hd32 : d.length = 32)
    (hdlt : ∀ x ∈ d, x < 256) : idReMatch (rawUrlEncode d) = true := by
  obtain ⟨hlen, hall, -⟩ := encoded_id_valid hd32 hdlt
  exact idReMatch_eq_true.mpr ⟨hlen, hall⟩

lemma chooseSrc_errCT {pmt : Name → Option Name} {req : Request}
    (hct : req.contentType ≠ []) (hp : pmt req.contentType = none) :
    chooseSrc pmt req = .errCT := by
  unfold chooseSrc
  simp [hct, hp]

lemma trimLeadingSlash_cons (l : Name) : trimLeadingSlash ('/' :: l) = l := rfl

/-! Branch characterizations of the upload handler. -/

lemma upload_errCT {digest : Bytes → Bytes} {pmt : Name → Option Name}
    {cfg : quotaConfig} {fs : FS} {tmp : Path} {req : Request}
    (h : chooseSrc pmt req = .errCT) (hfresh : lookupF fs.files tmp = none) :
    upload digest pmt cfg fs tmp req =
      { resp := .err400ContentType, fs := fs, lockAcquired := false,
        hashFinalized := false, renamed := false, usageComputed := false,
        tmpCreated := true } := by
  unfold upload
  rw [h]
  simp [cleanup_fresh _ hfresh]

lemma upload_errMultipart {digest : Bytes → Bytes} {pmt : Name → Option Name}
    {cfg : quotaConfig} {fs : FS} {tmp : Path} {req : Request}
    (h : chooseSrc pmt req = .errMultipart)
    (hfresh : lookupF fs.files tmp = none) :
    upload digest pmt cfg fs tmp req =
      { resp := .err400Multipart, fs := fs, lockAcquired := false,
        hashFinalized := false, renamed := false, usageComputed := false,
        tmpCreated := true } := by
  unfold upload
  rw [h]
  simp [cleanup_fresh _ hfresh]

lemma upload_errMissingPart {digest : Bytes → Bytes}
    {pmt : Name → Option Name} {cfg : quotaConfig} {fs : FS} {tmp : Path}
    {req : Request} (h : chooseSrc pmt req = .errMissingPart)
    (hfresh : lookupF fs.files tmp = none) :
    upload digest pmt cfg fs tmp req =
      { resp := .err400MissingPart, fs := fs, lockAcquired := false,
        hashFinalized := false, renamed := false, usageComputed := false,
        tmpCreated := true } := by
  unfold upload
  rw [h]
  simp [cleanup_fresh _ hfresh]

lemma upload_err413 {digest : Bytes → Bytes} {pmt : Name → Option Name}
    {cfg : quotaConfig} {fs : FS} {tmp : Path} {req : Request} {src : Bytes}
    (h : chooseSrc pmt req = .ok src) (hfresh : lookupF fs.files tmp = none)
    (hlen : src.length > cfg.MaxUploadByte) :
    upload digest pmt cfg fs tmp req =
      { resp := .err413, fs := fs, lockAcquired := false,
        hashFinalized := false, renamed := false, usageComputed := false,
        tmpCreated := true } := by
  unfold upload
  rw [h]
  simp [hlen, cleanup_fresh _ hfresh]

lemma upload_ok_src {digest : Bytes → Bytes} {pmt : Name → Option Name}
    {cfg : quotaConfig} {fs : FS} {tmp : Path} {req : Request} {src : Bytes}
    (h : chooseSrc pmt req = .ok src)
    (hlen : ¬ src.length > cfg.MaxUploadByte) :
    upload digest pmt cfg fs tmp req =
      publishGate digest cfg ⟨insertF fs.files tmp [], fs.dirs⟩ tmp src := by
  unfold upload
  rw [h]
  simp [hlen]

lemma publishGate_dedup {digest : Bytes → Bytes} {cfg : quotaConfig}
    {fs : FS} {tmp : Path} {src d : Bytes}
    (hfresh : lookupF fs.files tmp = none)
    (hlk : lookupF ((tmp, src) :: fs.files)
      (objPath (rawUrlEncode (digest src))) = some d) :
    publishGate digest cfg ⟨insertF fs.files tmp [], fs.dirs⟩ tmp src =
      { resp := .ok (rawUrlEncode (digest src)) src.length true,
        fs := ⟨fs.files,
          (objPath (rawUrlEncode (digest src))).take 1 ::
          (objPath (rawUrlEncode (digest src))).take 2 :: fs.dirs⟩,
        lockAcquired := true, hashFinalized := true, renamed := false,
        usageComputed := false, tmpCreated := true } := by
  unfold publishGate
  simp only [staged_files hfresh, hlk]
  simp [eraseF_cons_self]

lemma publishGate_reject {digest : Bytes → Bytes} {cfg : quotaConfig}
    {fs : FS} {tmp : Path} {src : Bytes}
    (hfresh : lookupF fs.files tmp = none)
    (hlk : lookupF ((tmp, src) :: fs.files)
      (objPath (rawUrlEncode (digest src))) = none)
    (hgt : storedObjectBytes fs.files + src.length > cfg.MaxStorageByte) :
    publishGate digest cfg ⟨insertF fs.files tmp [], fs.dirs⟩ tmp src =
      { resp := .err507 (storedObjectBytes fs.files) cfg.MaxStorageByte,
        fs := ⟨fs.files,
          (objPath (rawUrlEncode (digest src))).take 1 ::
          (objPath (rawUrlEncode (digest src))).take 2 :: fs.dirs⟩,
        lockAcquired := true, hashFinalized := true, renamed := false,
        usageComputed := true, tmpCreated := true } := by
  unfold publishGate
  simp only [staged_files hfresh, hlk]
  rw [diskUsageBytes_staged _ _ hfresh]
  simp [hgt, eraseF_cons_self]

lemma publishGate_publish {digest : Bytes → Bytes} {cfg : quotaConfig}
    {fs : FS} {tmp : Path} {src : Bytes}
    (hfresh : lookupF fs.files tmp = none)
    (hlk : lookupF ((tmp, src) :: fs.files)
      (objPath (rawUrlEncode (digest src))) = none)
    (hle : ¬ storedObjectBytes fs.files + src.length > cfg.MaxStorageByte) :
    publishGate digest cfg ⟨insertF fs.files tmp [], fs.dirs⟩ tmp src =
      { resp := .ok (rawUrlEncode (digest src)) src.length false,
        fs := ⟨(objPath (rawUrlEncode (digest src)), src) :: fs.files,
          (objPath (rawUrlEncode (digest src))).take 1 ::
          (objPath (rawUrlEncode (digest src))).take 2 :: fs.dirs⟩,
        lockAcquired := true, hashFinalized := true, renamed := true,
        usageComputed := true, tmpCreated := true } := by
  obtain ⟨htmpne, hfin⟩ := lookupF_cons_none hlk
  unfold publishGate
  simp only [staged_files hfresh, hlk]
  rw [diskUsageBytes_staged _ _ hfresh]
  simp only [hle, if_false]
  have hfiles : eraseF (insertF
      (eraseF ((tmp, src) :: fs.files) tmp)
      (objPath (rawUrlEncode (digest src))) src) tmp =
      (objPath (rawUrlEncode (digest src)), src) :: fs.files := by
    rw [eraseF_cons_self, insertF, eraseF_of_lookupF_none hfin]
    have hne : ¬ objPath (rawUrlEncode (digest src)) = tmp := fun h =>
      htmpne h.symm
    simp [eraseF, hne, eraseF_of_lookupF_none hfresh]
  simp [hfiles]

/-! Concrete inputs for the evaluation witnesses. -/

/-- Concrete digest collaborator for witnesses: it returns 32 zero bytes,
the shape of a 256-bit digest. -/
def digestW : Bytes → Bytes := fun _ => List.replicate 32 0

/-- Concrete media-type parser for witnesses: every header is malformed. -/
def pmtW : Name → Option Name := fun _ => none

/-- Empty storage root for witnesses. -/
def fsW : FS := ⟨[], []⟩

/-- Concrete staging path for witnesses, a single component under the
root as os.CreateTemp produces. -/
def tmpW : Path := ["up-1".data]

/-- Concrete raw-body request for witnesses: no Content-Type header and a
three-byte body. -/
def reqW : Request := ⟨[], [1, 2, 3], none⟩

/-- Concrete quota configuration for witnesses. -/
def cfgW : quotaConfig := ⟨100, 50⟩

/-- The identifier the witness digest encodes to: 43 times the letter A. -/
def idW : Name := List.replicate 43 'A'

/-! Claim theorems. -/

/-- C1: whenever the upload handler answers 200 for a payload, the id field
of the JSON response is the unpadded URL-safe base64 encoding of the
digest of the payload bytes, and for a 256-bit digest this identifier has
exactly 43 characters, all in the alphabet A-Z a-z 0-9 underscore hyphen,
hence no slash, plus, or padding character. -/
theorem C1_upload_id_is_encoded_digest
    (digest : Bytes → Bytes) (pmt : Name → Option Name) (cfg : quotaConfig)
    (fs : FS) (tmp : Path) (req : Request) (src : Bytes) (id : Name)
    (n : Nat) (dd : Bool)
    (hfresh : lookupF fs.files tmp = none)
    (hsrc : chooseSrc pmt req = .ok src)
    (hd32 : (digest src).length = 32)
    (hdlt : ∀ x ∈ digest src, x < 256)
    (hok : (upload digest pmt cfg fs tmp req).resp = .ok id n dd) :
    id = rawUrlEncode (digest src) ∧ n = src.length ∧
      id.length = 43 ∧ id.all isIdChar = true ∧
      '/' ∉ id ∧ '+' ∉ id ∧ '=' ∉ id := by
  obtain ⟨hlen43, hall, hs, hp, he⟩ := encoded_id_valid hd32 hdlt
  by_cases hlen : src.length > cfg.MaxUploadByte
  · rw [upload_err413 hsrc hfresh hlen] at hok
    exact absurd hok (by simp)
  · rw [upload_ok_src hsrc hlen] at hok
    cases hlk : lookupF ((tmp, src) :: fs.files)
        (objPath (rawUrlEncode (digest src))) with
    | some d =>
        rw [publishGate_dedup hfresh hlk] at hok
        simp only [UploadResp.ok.injEq] at hok
        obtain ⟨hid, hn, -⟩ := hok
        subst hid hn
        exact ⟨rfl, rfl, hlen43, hall, hs, hp, he⟩
    | none =>
        by_cases hgt : storedObjectBytes fs.files + src.length >
            cfg.MaxStorageByte
        · rw [publishGate_reject hfresh hlk hgt] at hok
          exact absurd hok (by simp)
        · rw [publishGate_publish hfresh hlk hgt] at hok
          simp only [UploadResp.ok.injEq] at hok
          obtain ⟨hid, hn, -⟩ := hok
          subst hid hn
          exact ⟨rfl, rfl, hlen43, hall, hs, hp, he⟩

/-- Evaluation witness for C1 at the concrete three-byte upload. -/
theorem C1_witness :
    idW = rawUrlEncode (digestW [1, 2, 3]) ∧ (3 : Nat) = ([1, 2, 3] : Bytes).length ∧
      idW.length = 43 ∧ idW.all isIdChar = true ∧
      '/' ∉ idW ∧ '+' ∉ idW ∧ '=' ∉ idW :=
  C1_upload_id_is_encoded_digest digestW pmtW cfgW fsW tmpW reqW [1, 2, 3]
    idW 3 false (by decide) (by decide) (by decide) (by decide) (by decide)

/-- C2: an upload that publishes its payload (200 response with deduped
false) is followed by a retrieval of the returned identifier that serves
exactly the uploaded bytes, with an ETag header equal to the identifier in
double quotes. -/
theorem C2_round_trip
    (digest : Bytes → Bytes) (pmt : Name → Option Name) (cfg : quotaConfig)
    (fs : FS) (tmp : Path) (req : Request) (src : Bytes) (id : Name)
    (n : Nat)
    (hfresh : lookupF fs.files tmp = none)
    (hsrc : chooseSrc pmt req = .ok src)
    (hd32 : (digest src).length = 32)
    (hdlt : ∀ x ∈ digest src, x < 256)
    (hok : (upload digest pmt cfg fs tmp req).resp = .ok id n false) :
    serveByID (upload digest pmt cfg fs tmp req).fs ('/' :: id) =
      { respNotFound := false, body := some src,
        etag := some ('"' :: id ++ ['"']), attemptedOpen := true } := by
  obtain ⟨hlen43, hall, hs, -, -⟩ := encoded_id_valid hd32 hdlt
  by_cases hlen : src.length > cfg.MaxUploadByte
  · rw [upload_err413 hsrc hfresh hlen] at hok
    exact absurd hok (by simp)
  · rw [upload_ok_src hsrc hlen] at hok ⊢
    cases hlk : lookupF ((tmp, src) :: fs.files)
        (objPath (rawUrlEncode (digest src))) with
    | some d =>
        rw [publishGate_dedup hfresh hlk] at hok
        simp at hok
    | none =>
        by_cases hgt : storedObjectBytes fs.files + src.length >
            cfg.MaxStorageByte
        · rw [publishGate_reject hfresh hlk hgt] at hok
          exact absurd hok (by simp)
        · rw [publishGate_publish hfresh hlk hgt] at hok ⊢
          simp only [UploadResp.ok.injEq] at hok
          obtain ⟨hid, hn, -⟩ := hok
          subst hid hn
          have hne : ¬ (rawUrlEncode (digest src) = [] ∨
              '/' ∈ rawUrlEncode (digest src) ∨
              ¬ idReMatch (rawUrlEncode (digest src))) := by
            push_neg
            refine ⟨?_, hs, by simp [encoded_id_matches hd32 hdlt]⟩
            intro h
            rw [h] at hlen43
            exact absurd hlen43 (by decide)
          unfold serveByID
          rw [trimLeadingSlash_cons]
          rw [if_neg hne]
          simp [lookupF]

/-- Evaluation witness for C2 at the concrete three-byte upload. -/
theorem C2_witness :
    serveByID (upload digestW pmtW cfgW fsW tmpW reqW).fs ('/' :: idW) =
      { respNotFound := false, body := some [1, 2, 3],
        etag := some ('"' :: idW ++ ['"']), attemptedOpen := true } :=
  C2_round_trip digestW pmtW cfgW fsW tmpW reqW [1, 2, 3] idW 3
    (by decide) (by decide) (by decide) (by decide) (by decide)

/-- C3: for an upload of size S reaching the quota check (staging done, no
duplicate at the target), the walked usage U excludes the staging file and
the configuration file and equals the total size of the stored objects; the
upload is published exactly when U + S is at most the ceiling, and
otherwise it is rejected with a 507 response reporting used bytes U and the
ceiling itself. -/
theorem C3_quota_boundary
    (digest : Bytes → Bytes) (pmt : Name → Option Name) (cfg : quotaConfig)
    (fs : FS) (tmp : Path) (req : Request) (src : Bytes)
    (hfresh : lookupF fs.files tmp = none)
    (hsrc : chooseSrc pmt req = .ok src)
    (hlen : ¬ src.length > cfg.MaxUploadByte)
    (hnd : lookupF ((tmp, src) :: fs.files)
      (objPath (rawUrlEncode (digest src))) = none) :
    diskUsageBytes ⟨(tmp, src) :: fs.files, fs.dirs⟩ tmp =
        storedObjectBytes fs.files ∧
      (storedObjectBytes fs.files + src.length ≤ cfg.MaxStorageByte →
        (upload digest pmt cfg fs tmp req).resp =
            .ok (rawUrlEncode (digest src)) src.length false ∧
          (upload digest pmt cfg fs tmp req).renamed = true) ∧
      (storedObjectBytes fs.files + src.length > cfg.MaxStorageByte →
        (upload digest pmt cfg fs tmp req).resp =
            .err507 (storedObjectBytes fs.files) cfg.MaxStorageByte ∧
          (upload digest pmt cfg fs tmp req).renamed = false) := by
  refine ⟨diskUsageBytes_staged _ _ hfresh, ?_, ?_⟩
  · intro hle
    rw [upload_ok_src hsrc hlen, publishGate_publish hfresh hnd (by omega)]
    exact ⟨rfl, rfl⟩
  · intro hgt
    rw [upload_ok_src hsrc hlen, publishGate_reject hfresh hnd hgt]
    exact ⟨rfl, rfl⟩

/-- Evaluation witness for C3 at the concrete three-byte upload against an
empty store with ceiling 100. -/
theorem C3_witness :
    diskUsageBytes ⟨(tmpW, [1, 2, 3]) :: fsW.files, fsW.dirs⟩ tmpW =
        storedObjectBytes fsW.files ∧
      (storedObjectBytes fsW.files + ([1, 2, 3] : Bytes).length ≤
          cfgW.MaxStorageByte →
        (upload digestW pmtW cfgW fsW tmpW reqW).resp =
            .ok (rawUrlEncode (digestW [1, 2, 3])) ([1, 2, 3] : Bytes).length
              false ∧
          (upload digestW pmtW cfgW fsW tmpW reqW).renamed = true) ∧
      (storedObjectBytes fsW.files + ([1, 2, 3] : Bytes).length >
          cfgW.MaxStorageByte →
        (upload digestW pmtW cfgW fsW tmpW reqW).resp =
            .err507 (storedObjectBytes fsW.files) cfgW.MaxStorageByte ∧
          (upload digestW pmtW cfgW fsW tmpW reqW).renamed = false) :=
  C3_quota_boundary digestW pmtW cfgW fsW tmpW reqW [1, 2, 3]
    (by decide) (by decide) (by decide) (by decide)

/-- C4: the total size of the stored objects never exceeds the storage
ceiling: every run of the upload handler started below the ceiling on a
fresh staging path ends below the ceiling, whichever of the decisions of
the publish gate it takes. -/
theorem C4_storage_ceiling_invariant
    (digest : Bytes → Bytes) (pmt : Name → Option Name) (cfg : quotaConfig)
    (fs : FS) (tmp : Path) (req : Request)
    (hfresh : lookupF fs.files tmp = none)
    (hd32 : ∀ b, (digest b).length = 32)
    (hinv : storedObjectBytes fs.files ≤ cfg.MaxStorageByte) :
    storedObjectBytes (upload digest pmt cfg fs tmp req).fs.files ≤
      cfg.MaxStorageByte := by
  cases hcs : chooseSrc pmt req with
  | errCT => rw [upload_errCT hcs hfresh]; exact hinv
  | errMultipart => rw [upload_errMultipart hcs hfresh]; exact hinv
  | errMissingPart => rw [upload_errMissingPart hcs hfresh]; exact hinv
  | ok src =>
      by_cases hlen : src.length > cfg.MaxUploadByte
      · rw [upload_err413 hcs hfresh hlen]; exact hinv
      · rw [upload_ok_src hcs hlen]
        cases hlk : lookupF ((tmp, src) :: fs.files)
            (objPath (rawUrlEncode (digest src))) with
        | some d => rw [publishGate_dedup hfresh hlk]; exact hinv
        | none =>
            by_cases hgt : storedObjectBytes fs.files + src.length >
                cfg.MaxStorageByte
            · rw [publishGate_reject hfresh hlk hgt]; exact hinv
            · rw [publishGate_publish hfresh hlk hgt]
              have hbase : pathBase (objPath (rawUrlEncode (digest src))) ≠
                  cfgPath := by
                have hlen43 : (rawUrlEncode (digest src)).length = 43 := by
                  rw [rawUrlEncode_length, hd32 src]
                intro h
                have : pathBase (objPath (rawUrlEncode (digest src))) =
                    rawUrlEncode (digest src) := rfl
                rw [this] at h
                rw [h] at hlen43
                exact absurd hlen43 (by decide)
              rw [storedObjectBytes_cons_ne _ hbase]
              omega

/-- Evaluation witness for C4 at the concrete three-byte upload against an
empty store. -/
theorem C4_witness :
    storedObjectBytes (upload digestW pmtW cfgW fsW tmpW reqW).fs.files ≤
      cfgW.MaxStorageByte :=
  C4_storage_ceiling_invariant digestW pmtW cfgW fsW tmpW reqW
    (by decide) (fun b => (by decide : (List.replicate 32 0 : Bytes).length = 32))
    (by decide)

/-- C5 counterexample: for the identifier of 43 letters A, the storage path
of the code keeps the FULL identifier as the final path component, so it
differs from the path the claim describes, whose final component is only
the remaining 39 characters. -/
theorem C5_counterexample :
    objPath (List.replicate 43 'A') ≠ specPathForC5 (List.replicate 43 'A') := by
  decide

/-- C5 amended: for every valid 43-character identifier the storage path
under the root consists of exactly the two shard segments of two characters
each, taken from the first four characters of the id, followed by the FULL
identifier as the final path component; the shards are consistent with the
id in that shard1, shard2 and the remaining 39 characters concatenate back
to the id. -/
theorem C5_path_layout (id : Name) (h : id.length = 43) :
    objPath id = [id.take 2, (id.drop 2).take 2, id] ∧
      (objPath id).getLastD [] = id ∧
      (id.take 2).length = 2 ∧ ((id.drop 2).take 2).length = 2 ∧
      id.take 2 ++ ((id.drop 2).take 2 ++ id.drop 4) = id := by
  refine ⟨rfl, rfl, ?_, ?_, ?_⟩
  · rw [List.length_take]
    omega
  · rw [List.length_take, List.length_drop]
    omega
  · have hdrop : (id.drop 2).drop 2 = id.drop 4 := by
      rw [List.drop_drop]
    rw [← hdrop, List.take_append_drop, List.take_append_drop]

/-- Evaluation witness for the amended C5 at the identifier of 43 letters
A. -/
theorem C5_witness :
    objPath idW = [idW.take 2, (idW.drop 2).take 2, idW] ∧
      (objPath idW).getLastD [] = idW ∧
      (idW.take 2).length = 2 ∧ ((idW.drop 2).take 2).length = 2 ∧
      idW.take 2 ++ ((idW.drop 2).take 2 ++ idW.drop 4) = idW :=
  C5_path_layout idW (by decide)

/-- C6: when a file already exists at the target path as the publish gate
runs, the handler answers 200 with the identifier, the size of the
just-uploaded payload and deduped true, performs no rename, and leaves the
filesystem files, in particular the existing object, unchanged. -/
theorem C6_dedup_short_circuit
    (digest : Bytes → Bytes) (pmt : Name → Option Name) (cfg : quotaConfig)
    (fs : FS) (tmp : Path) (req : Request) (src d0 : Bytes)
    (hfresh : lookupF fs.files tmp = none)
    (hsrc : chooseSrc pmt req = .ok src)
    (hlen : ¬ src.length > cfg.MaxUploadByte)
    (hdedup : lookupF fs.files (objPath (rawUrlEncode (digest src))) =
      some d0) :
    (upload digest pmt cfg fs tmp req).resp =
        .ok (rawUrlEncode (digest src)) src.length true ∧
      (upload digest pmt cfg fs tmp req).renamed = false ∧
      (upload digest pmt cfg fs tmp req).fs.files = fs.files ∧
      lookupF (upload digest pmt cfg fs tmp req).fs.files
        (objPath (rawUrlEncode (digest src))) = some d0 := by
  have htmpne : tmp ≠ objPath (rawUrlEncode (digest src)) := by
    intro h
    rw [← h, hfresh] at hdedup
    exact Option.noConfusion hdedup
  have hlk : lookupF ((tmp, src) :: fs.files)
      (objPath (rawUrlEncode (digest src))) = some d0 := by
    rw [lookupF_cons]
    simp [htmpne]
    exact hdedup
  rw [upload_ok_src hsrc hlen, publishGate_dedup hfresh hlk]
  exact ⟨rfl, rfl, rfl, hdedup⟩

/-- A store for the dedup witness that already holds a one-byte object at
the target path of the witness identifier. -/
def fsDedupW : FS := ⟨[(objPath idW, [9])], []⟩

/-- Evaluation witness for C6: uploading against a store that already holds
the target object answers deduped true and leaves the store unchanged. -/
theorem C6_witness :
    (upload digestW pmtW cfgW fsDedupW tmpW reqW).resp =
        .ok (rawUrlEncode (digestW [1, 2, 3])) ([1, 2, 3] : Bytes).length
          true ∧
      (upload digestW pmtW cfgW fsDedupW tmpW reqW).renamed = false ∧
      (upload digestW pmtW cfgW fsDedupW tmpW reqW).fs.files =
        fsDedupW.files ∧
      lookupF (upload digestW pmtW cfgW fsDedupW tmpW reqW).fs.files
        (objPath (rawUrlEncode (digestW [1, 2, 3]))) = some [9] :=
  C6_dedup_short_circuit digestW pmtW cfgW fsDedupW tmpW reqW [1, 2, 3] [9]
    (by decide) (by decide) (by decide) (by decide)

/-- C7: a retrieval whose path, after the leading slash is stripped, is not
exactly 43 characters of the identifier alphabet is answered not found and
no attempt is made to open any file. -/
theorem C7_invalid_id_not_found (fs : FS) (urlPath : Name)
    (h : ¬ ((trimLeadingSlash urlPath).length = 43 ∧
      (trimLeadingSlash urlPath).all isIdChar = true)) :
    serveByID fs urlPath =
      { respNotFound := true, body := none, etag := none,
        attemptedOpen := false } := by
  have hcond : trimLeadingSlash urlPath = [] ∨
      '/' ∈ trimLeadingSlash urlPath ∨
      ¬ idReMatch (trimLeadingSlash urlPath) :=
    Or.inr (Or.inr (fun hm => h (idReMatch_eq_true.mp hm)))
  unfold serveByID
  rw [if_pos hcond]

/-- Evaluation witness for C7 at the malformed retrieval path of three
characters. -/
theorem C7_witness :
    serveByID fsW "/ab.".data =
      { respNotFound := true, body := none, etag := none,
        attemptedOpen := false } :=
  C7_invalid_id_not_found fsW "/ab.".data (by decide)

/-- C8: an upload whose selected body is larger than the per-upload ceiling
is answered 413; the hash is never finalized, the quota mutex is never
taken, no usage walk runs, no rename happens, and the filesystem is left as
before the request, so no staging file remains. -/
theorem C8_oversize_short_circuit
    (digest : Bytes → Bytes) (pmt : Name → Option Name) (cfg : quotaConfig)
    (fs : FS) (tmp : Path) (req : Request) (src : Bytes)
    (hfresh : lookupF fs.files tmp = none)
    (hsrc : chooseSrc pmt req = .ok src)
    (hlen : src.length > cfg.MaxUploadByte) :
    (upload digest pmt cfg fs tmp req).resp = .err413 ∧
      (upload digest pmt cfg fs tmp req).hashFinalized = false ∧
      (upload digest pmt cfg fs tmp req).lockAcquired = false ∧
      (upload digest pmt cfg fs tmp req).usageComputed = false ∧
      (upload digest pmt cfg fs tmp req).renamed = false ∧
      (upload digest pmt cfg fs tmp req).fs = fs ∧
      lookupF (upload digest pmt cfg fs tmp req).fs.files tmp = none := by
  rw [upload_err413 hsrc hfresh hlen]
  exact ⟨rfl, rfl, rfl, rfl, rfl, rfl, hfresh⟩

/-- A quota configuration for the oversize witness whose per-upload ceiling
of two bytes the three-byte witness body exceeds. -/
def cfgSmallUploadW : quotaConfig := ⟨100, 2⟩

/-- Evaluation witness for C8: the three-byte upload against the two-byte
per-upload ceiling. -/
theorem C8_witness :
    (upload digestW pmtW cfgSmallUploadW fsW tmpW reqW).resp = .err413 ∧
      (upload digestW pmtW cfgSmallUploadW fsW tmpW reqW).hashFinalized =
        false ∧
      (upload digestW pmtW cfgSmallUploadW fsW tmpW reqW).lockAcquired =
        false ∧
      (upload digestW pmtW cfgSmallUploadW fsW tmpW reqW).usageComputed =
        false ∧
      (upload digestW pmtW cfgSmallUploadW fsW tmpW reqW).renamed = false ∧
      (upload digestW pmtW cfgSmallUploadW fsW tmpW reqW).fs = fsW ∧
      lookupF (upload digestW pmtW cfgSmallUploadW fsW tmpW reqW).fs.files
        tmpW = none :=
  C8_oversize_short_circuit digestW pmtW cfgSmallUploadW fsW tmpW reqW
    [1, 2, 3] (by decide) (by decide) (by decide)

/-- A request with a malformed Content-Type header for the C9
counterexample: the witness media-type parser rejects every header. -/
def reqBadCTW : Request := ⟨"bad".data, [1, 2, 3], none⟩

/-- C9 counterexample: on a concrete request with a malformed Content-Type
header the handler does answer 400, but a staging temporary file HAS been
created before that answer, because os.CreateTemp at line 150 of main.go
runs before the Content-Type check at lines 159-165, refuting the claim
that the rejection precedes any disk write. -/
theorem C9_counterexample :
    (upload digestW pmtW cfgW fsW tmpW reqBadCTW).resp =
        .err400ContentType ∧
      (upload digestW pmtW cfgW fsW tmpW reqBadCTW).tmpCreated = true := by
  decide

/-- C9 amended: an upload with a non-empty Content-Type header whose media
type cannot be parsed is answered 400 before any body byte is copied or
hashed and before the publish gate; a staging temporary file is created
before the check, but it is removed again, so the handler leaves the
filesystem exactly as it found it. -/
theorem C9_bad_content_type
    (digest : Bytes → Bytes) (pmt : Name → Option Name) (cfg : quotaConfig)
    (fs : FS) (tmp : Path) (req : Request)
    (hfresh : lookupF fs.files tmp = none)
    (hct : req.contentType ≠ [])
    (hp : pmt req.contentType = none) :
    (upload digest pmt cfg fs tmp req).resp = .err400ContentType ∧
      (upload digest pmt cfg fs tmp req).hashFinalized = false ∧
      (upload digest pmt cfg fs tmp req).lockAcquired = false ∧
      (upload digest pmt cfg fs tmp req).renamed = false ∧
      (upload digest pmt cfg fs tmp req).tmpCreated = true ∧
      (upload digest pmt cfg fs tmp req).fs = fs := by
  rw [upload_errCT (chooseSrc_errCT hct hp) hfresh]
  exact ⟨rfl, rfl, rfl, rfl, rfl, rfl⟩

/-- Evaluation witness for the amended C9 at the concrete malformed
Content-Type request. -/
theorem C9_witness :
    (upload digestW pmtW cfgW fsW tmpW reqBadCTW).resp =
        .err400ContentType ∧
      (upload digestW pmtW cfgW fsW tmpW reqBadCTW).hashFinalized = false ∧
      (upload digestW pmtW cfgW fsW tmpW reqBadCTW).lockAcquired = false ∧
      (upload digestW pmtW cfgW fsW tmpW reqBadCTW).renamed = false ∧
      (upload digestW pmtW cfgW fsW tmpW reqBadCTW).tmpCreated = true ∧
      (upload digestW pmtW cfgW fsW tmpW reqBadCTW).fs = fsW :=
  C9_bad_content_type digestW pmtW cfgW fsW tmpW reqBadCTW
    (by decide) (by decide) (by decide)

/-- C10: every upload that completes staging creates the two shard parent
directories of the target path before the publish decision, so they exist
afterwards whichever decision is taken, and on the deduplicated and
quota-rejected paths the files of the store are left unchanged, the staging
temporary file being the only file removed. -/
theorem C10_shard_dirs_created
    (digest : Bytes → Bytes) (pmt : Name → Option Name) (cfg : quotaConfig)
    (fs : FS) (tmp : Path) (req : Request) (src : Bytes)
    (hfresh : lookupF fs.files tmp = none)
    (hsrc : chooseSrc pmt req = .ok src)
    (hlen : ¬ src.length > cfg.MaxUploadByte) :
    [(rawUrlEncode (digest src)).take 2] ∈
        (upload digest pmt cfg fs tmp req).fs.dirs ∧
      [(rawUrlEncode (digest src)).take 2,
        ((rawUrlEncode (digest src)).drop 2).take 2] ∈
        (upload digest pmt cfg fs tmp req).fs.dirs ∧
      ((upload digest pmt cfg fs tmp req).renamed = false →
        (upload digest pmt cfg fs tmp req).fs.files = fs.files) := by
  rw [upload_ok_src hsrc hlen]
  cases hlk : lookupF ((tmp, src) :: fs.files)
      (objPath (rawUrlEncode (digest src))) with
  | some d =>
      rw [publishGate_dedup hfresh hlk]
      exact ⟨List.mem_cons_self _ _,
        List.mem_cons_of_mem _ (List.mem_cons_self _ _), fun _ => rfl⟩
  | none =>
      by_cases hgt : storedObjectBytes fs.files + src.length >
          cfg.MaxStorageByte
      · rw [publishGate_reject hfresh hlk hgt]
        exact ⟨List.mem_cons_self _ _,
        List.mem_cons_of_mem _ (List.mem_cons_self _ _), fun _ => rfl⟩
      · rw [publishGate_publish hfresh hlk hgt]
        exact ⟨List.mem_cons_self _ _,
          List.mem_cons_of_mem _ (List.mem_cons_self _ _),
          fun h => by simp at h⟩

/-- Evaluation witness for C10 at the concrete three-byte upload. -/
theorem C10_witness :
    [(rawUrlEncode (digestW [1, 2, 3])).take 2] ∈
        (upload digestW pmtW cfgW fsW tmpW reqW).fs.dirs ∧
      [(rawUrlEncode (digestW [1, 2, 3])).take 2,
        ((rawUrlEncode (digestW [1, 2, 3])).drop 2).take 2] ∈
        (upload digestW pmtW cfgW fsW tmpW reqW).fs.dirs ∧
      ((upload digestW pmtW cfgW fsW tmpW reqW).renamed = false →
        (upload digestW pmtW cfgW fsW tmpW reqW).fs.files = fsW.files) :=
  C10_shard_dirs_created digestW pmtW cfgW fsW tmpW reqW [1, 2, 3]
    (by decide) (by decide) (by decide)

end Sht2
